import Mathlib

/-!
Verification of the CDC event-distribution core of the event-management
repository: the Kafka→Weaviate index-sync consumer
(`scripts/kafka_to_weaviate.py`) and the registration email consumer
(`email_service.py`).  Python dictionaries are embedded as ordered
association lists over a dynamic `Value` type; machine-level behaviour
(Python floor division `//`, modulo `%`, `{:02d}` formatting, truthiness,
`dict.get` defaults, `dict.pop`) is modelled explicitly, and code that can
raise is embedded in `Except String`.
-/

namespace EventCDC

/-- Python runtime values occurring in the decoded JSON payloads of this
pipeline: `None`, booleans, integers and strings.  (Floats do not occur in
the fields the consumers touch.) -/
inductive Value where
  | vnull : Value
  | vbool : Bool → Value
  | vint  : Int → Value
  | vstr  : String → Value
deriving DecidableEq

/-- A Python dict as an insertion-ordered association list (keys unique in
well-formed inputs, as produced by `json.loads`). -/
def PyDict := List (String × Value)
deriving DecidableEq

instance : Append PyDict := ⟨List.append⟩

/-- Dictionary key lookup (`d[k]` / `k in d`). -/
def pyLookup : PyDict → String → Option Value
  | [], _ => none
  | (k', v) :: rest, k => if k' = k then some v else pyLookup rest k

/-- `d.get(k, default)`. -/
def pyGet (m : PyDict) (k : String) (dflt : Value) : Value :=
  match pyLookup m k with
  | some v => v
  | none => dflt

/-- `d[k] = v`: replace in place if `k` is present (CPython dicts keep the
original insertion position), otherwise append. -/
def pySet : PyDict → String → Value → PyDict
  | [], k, v => [(k, v)]
  | (k', v') :: rest, k, v =>
      if k' = k then (k', v) :: rest else (k', v') :: pySet rest k v

/-- `d.pop(k, None)`, the removal part: drop the entry for `k`. -/
def pyErase : PyDict → String → PyDict
  | [], _ => []
  | (k', v) :: rest, k => if k' = k then pyErase rest k else (k', v) :: pyErase rest k

/-- Python truthiness of a `Value` (`bool(v)`). -/
def truthy : Value → Bool
  | .vnull => false
  | .vbool b => b
  | .vint n => decide (n ≠ 0)
  | .vstr s => decide (s ≠ "")

/-- `isinstance(v, int)`.  In Python `bool` is a subclass of `int`, so
booleans pass this check as well. -/
def isPyInt : Value → Bool
  | .vint _ => true
  | .vbool _ => true
  | _ => false

/-- Numeric value of an `int`-like Python value (`True == 1`, `False == 0`). -/
def pyIntVal : Value → Int
  | .vint n => n
  | .vbool b => if b then 1 else 0
  | _ => 0

/-- Python `"{:02d}".format(n)`: pad with one leading zero when the printed
form (sign included) is a single character. -/
def pad2 (n : Int) : String :=
  let s := toString n
  if s.length < 2 then "0" ++ s else s

/-- Zero-pad a (positive) year to four digits, as `strftime('%Y')` renders
every year in the range this pipeline can produce. -/
def pad4 (n : Int) : String :=
  let s := toString n
  String.mk (List.replicate (4 - s.length) '0') ++ s

/-- Proleptic Gregorian date (year, month, day) of the day `z0` days after
1970-01-01; the civil-from-days algorithm, an exact model of
`datetime(1970, 1, 1) + timedelta(days=z0)` on the representable range. -/
def civilFromDays (z0 : Int) : Int × Int × Int :=
  let z := z0 + 719468
  let era := Int.fdiv z 146097
  let doe := z - era * 146097
  let yoe := Int.fdiv (doe - Int.fdiv doe 1460 + Int.fdiv doe 36524 - Int.fdiv doe 146096) 365
  let y := yoe + era * 400
  let doy := doe - (365 * yoe + Int.fdiv yoe 4 - Int.fdiv yoe 100)
  let mp := Int.fdiv (5 * doy + 2) 153
  let d := doy - Int.fdiv (153 * mp + 2) 5 + 1
  let m := mp + (if mp < 10 then 3 else -9)
  (y + (if m ≤ 2 then 1 else 0), m, d)

/-- `strftime('%Y-%m-%d')` of the day `d` days after 1970-01-01. -/
def renderDate (d : Int) : String :=
  let c := civilFromDays d
  pad4 c.1 ++ "-" ++ pad2 c.2.1 ++ "-" ++ pad2 c.2.2

/-- `datetime(1970,1,1) + timedelta(days=d)` succeeds exactly when the
result lies in `datetime`'s range 0001-01-01 .. 9999-12-31, i.e. when
`d` is between -719162 and 2932896; outside it Python raises
`OverflowError` (from `timedelta` for magnitudes above 999999999, from the
addition otherwise). -/
def dateValid (d : Int) : Bool :=
  decide (-719162 ≤ d) && decide (d ≤ 2932896)

/-- kafka_to_weaviate.py lines 26-28: convert an integer `event_date`
(days since the epoch) to `YYYY-MM-DD`; an out-of-range integer raises. -/
def convDateStep (c : PyDict) : Except String PyDict :=
  match pyLookup c "event_date" with
  | some v =>
    if isPyInt v then
      if dateValid (pyIntVal v) then
        .ok (pySet c "event_date" (.vstr (renderDate (pyIntVal v))))
      else .error "OverflowError"
    else .ok c
  | none => .ok c

/-- kafka_to_weaviate.py lines 33-37: `HH:MM:SS` from milliseconds since
midnight, with Python floor division and modulo and `{:02d}` padding. -/
def timeStr (ms : Int) : String :=
  let total_seconds := Int.fdiv ms 1000
  let hours := Int.fdiv total_seconds 3600
  let minutes := Int.fdiv (Int.fmod total_seconds 3600) 60
  let seconds := Int.fmod total_seconds 60
  pad2 hours ++ ":" ++ pad2 minutes ++ ":" ++ pad2 seconds

/-- kafka_to_weaviate.py lines 31-37: convert an integer `event_time`.
This block is total: Python integer division, modulo and formatting never
raise. -/
def convTimeStep (c : PyDict) : PyDict :=
  match pyLookup c "event_time" with
  | some v =>
    if isPyInt v then pySet c "event_time" (.vstr (timeStr (pyIntVal v))) else c
  | none => c

/-- `datetime.fromtimestamp(s)` succeeds exactly when the instant lies in
`datetime`'s range (modelled at the deployment's UTC timezone):
seconds in -62135596800 .. 253402300799. -/
def tsValid (s : Int) : Bool :=
  decide (-62135596800 ≤ s) && decide (s ≤ 253402300799)

/-- `strftime('%Y-%m-%d %H:%M:%S')` of the instant `secs` seconds after the
epoch (UTC). -/
def tsStr (secs : Int) : String :=
  let days := Int.fdiv secs 86400
  let sod := Int.fmod secs 86400
  renderDate days ++ " " ++ pad2 (Int.fdiv sod 3600) ++ ":" ++
    pad2 (Int.fdiv (Int.fmod sod 3600) 60) ++ ":" ++ pad2 (Int.fmod sod 60)

/-- kafka_to_weaviate.py lines 40-44, one iteration of the
`created_at`/`updated_at` loop: `datetime.fromtimestamp(v / 1000)` then
`strftime('%Y-%m-%d %H:%M:%S')`.  The float division's fractional part is
dropped by the render (no `%f`), so the result is the floor of `v/1000`
seconds; an out-of-range value raises. -/
def convTsStep (c : PyDict) (field : String) : Except String PyDict :=
  match pyLookup c field with
  | some v =>
    if isPyInt v then
      if tsValid (Int.fdiv (pyIntVal v) 1000) then
        .ok (pySet c field (.vstr (tsStr (Int.fdiv (pyIntVal v) 1000))))
      else .error "OverflowError"
    else .ok c
  | none => .ok c

/-- kafka_to_weaviate.py lines 21-46, `convert_dates`: copy the dict
(`dict(event_data)` — the argument itself is never written), then run the
three conversion blocks in source order.  A raise in an earlier block
aborts the later ones, exactly as in Python. -/
def convert_dates (event_data : PyDict) : Except String PyDict :=
  match convDateStep event_data with
  | .error e => .error e
  | .ok c1 =>
    match convTsStep (convTimeStep c1) "created_at" with
    | .error e => .error e
    | .ok c3 =>
      match convTsStep c3 "updated_at" with
      | .error e => .error e
      | .ok c4 => .ok c4

/-- A document stored in the Weaviate index.  `docId` models the
server-assigned object UUID: `POST /v1/objects` without an `id` field in
the body (the only call this script ever makes — the posted `obj` carries
only `class` and `properties`) creates a new object under a fresh
identity, never overwriting an existing one.  Freshness is modelled by
numbering documents in creation order. -/
structure WDoc where
  docId : Nat
  cls : String
  properties : PyDict
deriving DecidableEq

/-- kafka_to_weaviate.py lines 48-60: the properties of the posted object.
`convert_dates` runs first (outside any try block, so its raise
propagates), then `postgres_id = event_data.pop('id', None)` removes the
origin primary key, and it is re-attached as `postgres_id` only when it is
truthy. -/
def weaviateProps (event_data : PyDict) : Except String PyDict :=
  match convert_dates event_data with
  | .error e => .error e
  | .ok converted =>
    let postgres_id := pyGet converted "id" .vnull
    let event_data := pyErase converted "id"
    .ok (if truthy postgres_id then pySet event_data "postgres_id" postgres_id else event_data)

/-- kafka_to_weaviate.py lines 48-65, `send_to_weaviate`, as a transformer
of the index state.  `postOk` is the oracle for whether the
`requests.post` call raised; the try block covers only the post, so a post
failure is logged and leaves the index unchanged, while a `convert_dates`
raise propagates to the caller. -/
def send_to_weaviate (event_data : PyDict) (index : List WDoc) (postOk : Bool) :
    Except String (List WDoc) :=
  match weaviateProps event_data with
  | .error e => .error e
  | .ok props =>
    if postOk then .ok (index ++ [⟨index.length, "Event", props⟩]) else .ok index

/-- The `value` of one Kafka message on the events topic, as far as line 85
inspects it: the `after` entry may be absent, `null`, or a row image. -/
inductive Payload where
  | absent : Payload
  | pnull : Payload
  | pdict : PyDict → Payload
deriving DecidableEq

/-- kafka_to_weaviate.py lines 82-88, the consumer loop of `main`: for each
message, when `'after' in event and event['after']` is truthy (an empty
dict is falsy) call `send_to_weaviate`, else skip.  The loop body has no
exception handler, so a raise from `send_to_weaviate` terminates the loop
with the remaining messages unprocessed. -/
def runIndexLoop (postOk : Bool) : List Payload → List WDoc → Except String (List WDoc)
  | [], index => .ok index
  | msg :: rest, index =>
    match msg with
    | .pdict after =>
      if after.isEmpty then runIndexLoop postOk rest index
      else
        match send_to_weaviate after index postOk with
        | .error e => .error e
        | .ok index' => runIndexLoop postOk rest index'
    | _ => runIndexLoop postOk rest index

/-- One row of the `registration_details` read-model view, with the fields
email_service.py lines 269-281 consume.  SQL `NULL` is `none`; text fields
that can be `NULL` or empty are `Option String`. -/
structure RegDetails where
  event_title : String
  event_description : Option String
  event_category : String
  event_location : String
  event_date : Option String
  event_time : Option String
  organizer : String
  email : String
  full_name : Option String
  username : String
deriving DecidableEq

/-- The `event_details` dict built at email_service.py lines 269-277. -/
structure EventDetails where
  title : String
  description : Option String
  category : String
  location : String
  event_date : String
  event_time : String
  organizer : String
deriving DecidableEq

/-- email_service.py lines 269-277: `str(v) if v else 'TBD'` for the date
and time (a fetched `date`/`time` object is always truthy, `NULL` is
falsy), the other fields passed through. -/
def mkEventDetails (rd : RegDetails) : EventDetails where
  title := rd.event_title
  description := rd.event_description
  category := rd.event_category
  location := rd.event_location
  event_date := match rd.event_date with | some s => s | none => "TBD"
  event_time := match rd.event_time with | some s => s | none => "TBD"
  organizer := rd.organizer

/-- email_service.py lines 74-82: the `formatted_datetime` line of the
email body built by `_create_email_template`. -/
def formattedDatetime (ed : EventDetails) : String :=
  if ed.event_date ≠ "TBD" ∧ ed.event_time ≠ "TBD" then
    ed.event_date ++ " at " ++ ed.event_time
  else if ed.event_date ≠ "TBD" then ed.event_date
  else "Date and time to be announced"

/-- email_service.py line 281: `registration_details['full_name'] or
registration_details['username']` — Python `or` falls through on a falsy
(`NULL` or empty) full name. -/
def displayName (rd : RegDetails) : String :=
  match rd.full_name with
  | some s => if s = "" then rd.username else s
  | none => rd.username

/-- The externally visible actions of one pass through
`process_registration_event`: the read-model fetch, the outbound email
(recipient, display name, event details), and the idempotency-flag write. -/
inductive Effect where
  | fetch : Value → Effect
  | send : String → String → EventDetails → Effect
  | markSent : Value → Effect
deriving DecidableEq

/-- email_service.py lines 242-291, `process_registration_event`, as the
list of effects it performs.  `fetch` is the oracle for
`db_service.get_registration_details` (which returns `None` on error or a
missing row rather than raising) and `sendOk` for the boolean result of
`send_registration_confirmation` (which catches its own exceptions).
Lines 251-258: `status = after_data.get('status', '')`,
`email_sent = after_data.get('email_sent', False)`, and the guard
`if status != 'registered' or email_sent: return` — the only path to the
fetch, the send and the flag write. -/
def process_registration_event (msg : PyDict) (fetch : Value → Option RegDetails)
    (sendOk : Bool) : List Effect :=
  if msg.isEmpty then []
  else
    let registration_id := pyGet msg "id" .vnull
    let status := pyGet msg "status" (.vstr "")
    let email_sent := pyGet msg "email_sent" (.vbool false)
    if status ≠ Value.vstr "registered" ∨ truthy email_sent then []
    else
      match fetch registration_id with
      | none => [.fetch registration_id]
      | some rd =>
        if sendOk then
          [.fetch registration_id, .send rd.email (displayName rd) (mkEventDetails rd),
           .markSent registration_id]
        else
          [.fetch registration_id, .send rd.email (displayName rd) (mkEventDetails rd)]

/-- One row of the `event_registrations` table, with the columns
`mark_email_sent` touches. -/
structure RegRow where
  rid : Int
  email_sent : Bool
  email_sent_at : Option String
deriving DecidableEq

/-- email_service.py lines 168-183 / the SQL `UPDATE event_registrations
SET email_sent = TRUE, email_sent_at = CURRENT_TIMESTAMP WHERE id = %s`:
set the flag and timestamp on every row whose id matches, leave all other
rows untouched. -/
def mark_email_sent (db : List RegRow) (registration_id : Int) (now : String) : List RegRow :=
  db.map fun r =>
    if r.rid = registration_id then { r with email_sent := true, email_sent_at := some now }
    else r

/-- email_service.py lines 302-308, the consumer loop of `run`: each
message's processing is wrapped in try/except (and
`process_registration_event` catches internally as well), so the loop
handles every message and an error on one message never prevents the
next from being processed.  A message with a `None` value is skipped. -/
def runEmailLoop (msgs : List (Option PyDict)) (fetch : Value → Option RegDetails)
    (sendOk : Bool) : List (List Effect) :=
  msgs.map fun mv =>
    match mv with
    | some m => process_registration_event m fetch sendOk
    | none => []

/-- The two dict-valued locals of `convert_dates`, for observing that the
argument is never written: `event_data` is the caller's dict, and
`converted_data` the dict the function builds and returns. -/
structure ConvStore where
  event_data : PyDict
  converted_data : PyDict
deriving DecidableEq

/-- kafka_to_weaviate.py line 23: `converted_data = dict(event_data)`, a
fresh shallow copy (the payload's values are immutable scalars). -/
def convCopyStep (s : ConvStore) : ConvStore :=
  { s with converted_data := s.event_data }

/-- kafka_to_weaviate.py lines 26-28 as a store transformer: the block
reads and writes only `converted_data`. -/
def convDateStepS (s : ConvStore) : Except String ConvStore :=
  match convDateStep s.converted_data with
  | .error e => .error e
  | .ok c => .ok { s with converted_data := c }

/-- kafka_to_weaviate.py lines 31-37 as a store transformer: the block
reads and writes only `converted_data`. -/
def convTimeStepS (s : ConvStore) : ConvStore :=
  { s with converted_data := convTimeStep s.converted_data }

/-- kafka_to_weaviate.py lines 40-44 as a store transformer: the loop body
reads and writes only `converted_data`. -/
def convTsStepS (s : ConvStore) (field : String) : Except String ConvStore :=
  match convTsStep s.converted_data field with
  | .error e => .error e
  | .ok c => .ok { s with converted_data := c }

/-- The whole body of `convert_dates` (lines 21-46) run statement by
statement over both dict-valued locals, returning the final store (the
returned dict is `converted_data`). -/
def convertDatesRun (m : PyDict) : Except String ConvStore :=
  match convDateStepS (convCopyStep { event_data := m, converted_data := [] }) with
  | .error e => .error e
  | .ok s2 =>
    match convTsStepS (convTimeStepS s2) "created_at" with
    | .error e => .error e
    | .ok s4 =>
      match convTsStepS s4 "updated_at" with
      | .error e => .error e
      | .ok s5 => .ok s5

/-- The field at `k` holds no `int`-like value (it is absent or already a
decoded, human-readable value). -/
def notIntAt (c : PyDict) (k : String) : Prop :=
  ∀ v, pyLookup c k = some v → isPyInt v = false

theorem pyLookup_pySet_self (m : PyDict) (k : String) (v : Value) :
    pyLookup (pySet m k v) k = some v := by
  induction m with
  | nil => simp [pySet, pyLookup]
  | cons kv rest ih =>
    obtain ⟨k', v'⟩ := kv
    by_cases h : k' = k
    · simp [pySet, pyLookup, h]
    · simp [pySet, pyLookup, h, ih]

theorem pyLookup_pySet_ne (m : PyDict) (k k' : String) (v : Value) (h : k' ≠ k) :
    pyLookup (pySet m k v) k' = pyLookup m k' := by
  have hk : ¬ k = k' := fun hh => h hh.symm
  induction m with
  | nil => simp only [pySet, pyLookup, if_neg hk]
  | cons kv rest ih =>
    obtain ⟨k0, v0⟩ := kv
    by_cases h0 : k0 = k
    · subst h0
      simp only [pySet, if_pos rfl, pyLookup, if_neg hk]
    · simp only [pySet, if_neg h0, pyLookup, ih]

theorem pyLookup_pyErase_self (m : PyDict) (k : String) :
    pyLookup (pyErase m k) k = none := by
  induction m with
  | nil => rfl
  | cons kv rest ih =>
    obtain ⟨k', v'⟩ := kv
    by_cases h : k' = k
    · simp only [pyErase, if_pos h, ih]
    · simp only [pyErase, if_neg h, pyLookup, if_neg h, ih]

theorem pyLookup_pyErase_ne (m : PyDict) (k k' : String) (h : k' ≠ k) :
    pyLookup (pyErase m k) k' = pyLookup m k' := by
  induction m with
  | nil => rfl
  | cons kv rest ih =>
    obtain ⟨k0, v0⟩ := kv
    by_cases h0 : k0 = k
    · subst h0
      have hk : ¬ k0 = k' := fun hh => h hh.symm
      simp [pyErase, pyLookup, ih, hk]
    · simp only [pyErase, if_neg h0, pyLookup, ih]

theorem convDateStep_ok_lookup_ne (c c' : PyDict) (k : String)
    (h : convDateStep c = .ok c') (hk : k ≠ "event_date") :
    pyLookup c' k = pyLookup c k := by
  unfold convDateStep at h
  split at h
  · split at h
    · split at h
      · cases h
        exact pyLookup_pySet_ne _ _ _ _ hk
      · cases h
    · cases h
      rfl
  · cases h
    rfl

theorem convDateStep_ok_notInt (c c' : PyDict)
    (h : convDateStep c = .ok c') : notIntAt c' "event_date" := by
  intro v hv
  unfold convDateStep at h
  split at h
  case _ v0 hl =>
    split at h
    · split at h
      · cases h
        rw [pyLookup_pySet_self] at hv
        cases hv
        rfl
      · cases h
    · rename_i hni
      cases h
      rw [hl] at hv
      cases hv
      simpa using hni
  case _ hl =>
    cases h
    rw [hl] at hv
    cases hv

theorem convDateStep_skip (c : PyDict) (h : notIntAt c "event_date") :
    convDateStep c = .ok c := by
  unfold convDateStep
  split
  case _ v0 hl =>
    have := h v0 hl
    simp [this]
  case _ hl => rfl

theorem convDateStep_int (c : PyDict) (v : Value)
    (hl : pyLookup c "event_date" = some v) (hi : isPyInt v = true)
    (hv : dateValid (pyIntVal v) = true) :
    convDateStep c = .ok (pySet c "event_date" (.vstr (renderDate (pyIntVal v)))) := by
  unfold convDateStep
  rw [hl]
  simp [hi, hv]

theorem convTimeStep_lookup_ne (c : PyDict) (k : String) (hk : k ≠ "event_time") :
    pyLookup (convTimeStep c) k = pyLookup c k := by
  unfold convTimeStep
  split
  · split
    · exact pyLookup_pySet_ne _ _ _ _ hk
    · rfl
  · rfl

theorem convTimeStep_notInt (c : PyDict) : notIntAt (convTimeStep c) "event_time" := by
  intro v hv
  unfold convTimeStep at hv
  split at hv
  case _ v0 hl =>
    split at hv
    · rw [pyLookup_pySet_self] at hv
      cases hv
      rfl
    · rename_i hni
      rw [hl] at hv
      cases hv
      simpa using hni
  case _ hl =>
    rw [hl] at hv
    cases hv

theorem convTimeStep_skip (c : PyDict) (h : notIntAt c "event_time") :
    convTimeStep c = c := by
  unfold convTimeStep
  split
  case _ v0 hl =>
    have := h v0 hl
    simp [this]
  case _ hl => rfl

theorem convTimeStep_int (c : PyDict) (v : Value)
    (hl : pyLookup c "event_time" = some v) (hi : isPyInt v = true) :
    convTimeStep c = pySet c "event_time" (.vstr (timeStr (pyIntVal v))) := by
  unfold convTimeStep
  rw [hl]
  simp [hi]

theorem convTsStep_ok_lookup_ne (c c' : PyDict) (field k : String)
    (h : convTsStep c field = .ok c') (hk : k ≠ field) :
    pyLookup c' k = pyLookup c k := by
  unfold convTsStep at h
  split at h
  · split at h
    · split at h
      · cases h
        exact pyLookup_pySet_ne _ _ _ _ hk
      · cases h
    · cases h
      rfl
  · cases h
    rfl

theorem convTsStep_ok_notInt (c c' : PyDict) (field : String)
    (h : convTsStep c field = .ok c') : notIntAt c' field := by
  intro v hv
  unfold convTsStep at h
  split at h
  case _ v0 hl =>
    split at h
    · split at h
      · cases h
        rw [pyLookup_pySet_self] at hv
        cases hv
        rfl
      · cases h
    · rename_i hni
      cases h
      rw [hl] at hv
      cases hv
      simpa using hni
  case _ hl =>
    cases h
    rw [hl] at hv
    cases hv

theorem convTsStep_skip (c : PyDict) (field : String) (h : notIntAt c field) :
    convTsStep c field = .ok c := by
  unfold convTsStep
  split
  case _ v0 hl =>
    have := h v0 hl
    simp [this]
  case _ hl => rfl

/-- Inversion of a successful `convert_dates`: the three blocks ran in
order and all succeeded. -/
theorem convert_dates_inv (m r : PyDict) (h : convert_dates m = .ok r) :
    ∃ c1 c3, convDateStep m = .ok c1 ∧
      convTsStep (convTimeStep c1) "created_at" = .ok c3 ∧
      convTsStep c3 "updated_at" = .ok r := by
  unfold convert_dates at h
  split at h
  · cases h
  case _ c1 h1 =>
    split at h
    · cases h
    case _ c3 h3 =>
      split at h
      · cases h
      case _ c4 h4 =>
        cases h
        exact ⟨c1, c3, h1, h3, h4⟩

theorem convDateStep_ok_int (c c' : PyDict) (d : Int)
    (hl : pyLookup c "event_date" = some (.vint d))
    (h : convDateStep c = .ok c') :
    c' = pySet c "event_date" (.vstr (renderDate d)) := by
  unfold convDateStep at h
  rw [hl] at h
  simp only [isPyInt, pyIntVal, if_true] at h
  split at h
  · cases h
    rfl
  · cases h

theorem convTsStep_ok_lookup_of_eq (c c' : PyDict) (field k : String) (v : Value)
    (h : convTsStep c field = .ok c') (hk : k ≠ field)
    (hl : pyLookup c k = some v) : pyLookup c' k = some v := by
  rw [convTsStep_ok_lookup_ne c c' field k h hk, hl]

/-- C3: the conversions themselves are the claimed ones, but only on
payloads whose integer temporal fields are representable; outside that
range `convert_dates` raises instead of rendering (see the
counterexample), so the theorem is conditional on the call returning.
Whenever `convert_dates` returns, an integer `event_date` has been
rendered as the `YYYY-MM-DD` form of the day that many days after
1970-01-01, and an integer `event_time` of `ms` milliseconds as
`HH:MM:SS` with hours `(ms/1000)/3600`, minutes `((ms/1000) mod 3600)/60`
and seconds `(ms/1000) mod 60`, floor division and modulo throughout,
each rendered with Python `{:02d}` zero padding. -/
theorem c3_temporal_decoding (m r : PyDict) (h : convert_dates m = .ok r) :
    (∀ d : Int, pyLookup m "event_date" = some (.vint d) →
       pyLookup r "event_date" = some (.vstr (renderDate d))) ∧
    (∀ ms : Int, pyLookup m "event_time" = some (.vint ms) →
       pyLookup r "event_time" = some (.vstr
         (pad2 (Int.fdiv (Int.fdiv ms 1000) 3600) ++ ":" ++
          pad2 (Int.fdiv (Int.fmod (Int.fdiv ms 1000) 3600) 60) ++ ":" ++
          pad2 (Int.fmod (Int.fdiv ms 1000) 60)))) := by
  obtain ⟨c1, c3, h1, h3, h4⟩ := convert_dates_inv m r h
  constructor
  · intro d hd
    have hc1 : c1 = pySet m "event_date" (.vstr (renderDate d)) :=
      convDateStep_ok_int m c1 d hd h1
    have l1 : pyLookup c1 "event_date" = some (.vstr (renderDate d)) := by
      rw [hc1]
      exact pyLookup_pySet_self m "event_date" _
    have l2 : pyLookup (convTimeStep c1) "event_date" = some (.vstr (renderDate d)) := by
      rw [convTimeStep_lookup_ne c1 "event_date" (by decide), l1]
    have l3 : pyLookup c3 "event_date" = some (.vstr (renderDate d)) :=
      convTsStep_ok_lookup_of_eq _ c3 "created_at" "event_date" _ h3 (by decide) l2
    exact convTsStep_ok_lookup_of_eq c3 r "updated_at" "event_date" _ h4 (by decide) l3
  · intro ms hms
    have l1 : pyLookup c1 "event_time" = some (.vint ms) := by
      rw [convDateStep_ok_lookup_ne m c1 "event_time" h1 (by decide), hms]
    have hc2 : convTimeStep c1 = pySet c1 "event_time" (.vstr (timeStr ms)) :=
      convTimeStep_int c1 (.vint ms) l1 rfl
    have l2 : pyLookup (convTimeStep c1) "event_time" = some (.vstr (timeStr ms)) := by
      rw [hc2]
      exact pyLookup_pySet_self c1 "event_time" _
    have l3 : pyLookup c3 "event_time" = some (.vstr (timeStr ms)) :=
      convTsStep_ok_lookup_of_eq _ c3 "created_at" "event_time" _ h3 (by decide) l2
    have l4 : pyLookup r "event_time" = some (.vstr (timeStr ms)) :=
      convTsStep_ok_lookup_of_eq c3 r "updated_at" "event_time" _ h4 (by decide) l3
    exact l4

/-- C3 witness: the spec's own anchor values.  `event_date = 20000`
renders as `2024-10-04` and `event_time = 34200000` as `09:30:00`. -/
theorem c3_temporal_decoding_witness :
    pyLookup [("event_date", Value.vstr "2024-10-04"), ("event_time", Value.vstr "09:30:00")]
      "event_date" = some (Value.vstr (renderDate 20000)) ∧
    pyLookup [("event_date", Value.vstr "2024-10-04"), ("event_time", Value.vstr "09:30:00")]
      "event_time" = some (Value.vstr
        (pad2 (Int.fdiv (Int.fdiv 34200000 1000) 3600) ++ ":" ++
         pad2 (Int.fdiv (Int.fmod (Int.fdiv 34200000 1000) 3600) 60) ++ ":" ++
         pad2 (Int.fmod (Int.fdiv 34200000 1000) 60))) :=
  ⟨(c3_temporal_decoding
      [("event_date", Value.vint 20000), ("event_time", Value.vint 34200000)]
      [("event_date", Value.vstr "2024-10-04"), ("event_time", Value.vstr "09:30:00")]
      rfl).1 20000 rfl,
   (c3_temporal_decoding
      [("event_date", Value.vint 20000), ("event_time", Value.vint 34200000)]
      [("event_date", Value.vstr "2024-10-04"), ("event_time", Value.vstr "09:30:00")]
      rfl).2 34200000 rfl⟩

/-- C3 counterexample: the claim's universal quantification over payload
maps fails.  For `event_date = 3000000` (a day in year 10183, past
`datetime`'s year 9999 ceiling) Python raises `OverflowError` from
`datetime(1970, 1, 1) + timedelta(days=3000000)` instead of rendering a
date, so `convert_dates` produces no converted record at all. -/
theorem c3_counterexample :
    convert_dates [("event_date", Value.vint 3000000)] = Except.error "OverflowError" := rfl

/-- C4: the claim that no malformed temporal encoding raises past
`convert_dates` is contradicted by the code: the function has no exception
handler, so an integer `event_date` whose magnitude exceeds `timedelta`'s
999999999-day bound — here 1000000000 — makes
`timedelta(days=converted_data['event_date'])` raise `OverflowError`,
which propagates to the caller and none of the record's fields get
converted or delivered. -/
theorem c4_converter_raises :
    convert_dates [("event_date", Value.vint 1000000000), ("title", Value.vstr "PyCon")] =
      Except.error "OverflowError" := rfl

/-- C8: the Domain Value Converter is idempotent.  Whenever
`convert_dates m` returns a map `r`, running it again on `r` returns `r`
unchanged, and every temporal field of `m` that already held a
non-`int` (already decoded) value is carried into `r` unchanged.  (As in
Python, `isinstance(v, int)` is the notion of "integer" here.) -/
theorem c8_converter_idempotent (m r : PyDict) (h : convert_dates m = .ok r) :
    convert_dates r = .ok r ∧
    (∀ k, k = "event_date" ∨ k = "event_time" ∨ k = "created_at" ∨ k = "updated_at" →
      ∀ v, pyLookup m k = some v → isPyInt v = false → pyLookup r k = some v) := by
  obtain ⟨c1, c3, h1, h3, h4⟩ := convert_dates_inv m r h
  have preserve : ∀ k : String, k ≠ "event_time" → k ≠ "created_at" → k ≠ "updated_at" →
      pyLookup r k = pyLookup c1 k := by
    intro k hk1 hk2 hk3
    rw [convTsStep_ok_lookup_ne c3 r "updated_at" k h4 hk3,
      convTsStep_ok_lookup_ne _ c3 "created_at" k h3 hk2,
      convTimeStep_lookup_ne c1 k hk1]
  have hED : notIntAt r "event_date" := by
    intro v hv
    rw [preserve "event_date" (by decide) (by decide) (by decide)] at hv
    exact convDateStep_ok_notInt m c1 h1 v hv
  have hET : notIntAt r "event_time" := by
    intro v hv
    rw [convTsStep_ok_lookup_ne c3 r "updated_at" _ h4 (by decide),
      convTsStep_ok_lookup_ne _ c3 "created_at" _ h3 (by decide)] at hv
    exact convTimeStep_notInt c1 v hv
  have hCA : notIntAt r "created_at" := by
    intro v hv
    rw [convTsStep_ok_lookup_ne c3 r "updated_at" _ h4 (by decide)] at hv
    exact convTsStep_ok_notInt _ c3 "created_at" h3 v hv
  have hUA : notIntAt r "updated_at" := convTsStep_ok_notInt c3 r "updated_at" h4
  constructor
  · have s1 : convDateStep r = .ok r := convDateStep_skip r hED
    have s2 : convTimeStep r = r := convTimeStep_skip r hET
    have s3 : convTsStep r "created_at" = .ok r := convTsStep_skip r "created_at" hCA
    have s4 : convTsStep r "updated_at" = .ok r := convTsStep_skip r "updated_at" hUA
    simp only [convert_dates, s1, s2, s3, s4]
  · intro k hk v hv hni
    rcases hk with hk | hk | hk | hk
    all_goals subst hk
    · have skip1 : convDateStep m = .ok m := by
        apply convDateStep_skip
        intro v' hv'
        rw [hv] at hv'
        cases hv'
        exact hni
      have hc1 : c1 = m := by
        rw [skip1] at h1
        cases h1
        rfl
      rw [preserve "event_date" (by decide) (by decide) (by decide), hc1, hv]
    · have l1 : pyLookup c1 "event_time" = some v := by
        rw [convDateStep_ok_lookup_ne m c1 _ h1 (by decide), hv]
      have skip2 : convTimeStep c1 = c1 := by
        apply convTimeStep_skip
        intro v' hv'
        rw [l1] at hv'
        cases hv'
        exact hni
      rw [convTsStep_ok_lookup_ne c3 r "updated_at" _ h4 (by decide),
        convTsStep_ok_lookup_ne _ c3 "created_at" _ h3 (by decide), skip2, l1]
    · have l2 : pyLookup (convTimeStep c1) "created_at" = some v := by
        rw [convTimeStep_lookup_ne c1 _ (by decide),
          convDateStep_ok_lookup_ne m c1 _ h1 (by decide), hv]
      have skip3 : convTsStep (convTimeStep c1) "created_at" = .ok (convTimeStep c1) := by
        apply convTsStep_skip
        intro v' hv'
        rw [l2] at hv'
        cases hv'
        exact hni
      have hc3 : c3 = convTimeStep c1 := by
        rw [skip3] at h3
        cases h3
        rfl
      rw [convTsStep_ok_lookup_ne c3 r "updated_at" _ h4 (by decide), hc3, l2]
    · have l3 : pyLookup c3 "updated_at" = some v := by
        rw [convTsStep_ok_lookup_ne _ c3 "created_at" _ h3 (by decide),
          convTimeStep_lookup_ne c1 _ (by decide),
          convDateStep_ok_lookup_ne m c1 _ h1 (by decide), hv]
      have skip4 : convTsStep c3 "updated_at" = .ok c3 := by
        apply convTsStep_skip
        intro v' hv'
        rw [l3] at hv'
        cases hv'
        exact hni
      have hr : r = c3 := by
        rw [skip4] at h4
        cases h4
        rfl
      rw [hr, l3]

/-- C8 witness: converting an already-converted record is the identity on
a record whose `event_date` was actually decoded on the first pass. -/
theorem c8_converter_idempotent_witness :
    convert_dates [("event_date", Value.vstr "2024-10-04"), ("title", Value.vstr "PyCon")] =
      Except.ok [("event_date", Value.vstr "2024-10-04"), ("title", Value.vstr "PyCon")] :=
  (c8_converter_idempotent
    [("event_date", Value.vint 20000), ("title", Value.vstr "PyCon")]
    [("event_date", Value.vstr "2024-10-04"), ("title", Value.vstr "PyCon")] rfl).1

/-- C1: the idempotency gate.  For any registration change record whose
decoded `email_sent` is a boolean `b` (including an absent field, which
`get('email_sent', False)` decodes to `False`): if the decoded status is
not `registered` or the flag is true, the consumer performs no read-model
fetch, no notification send and no flag write (the effect list is empty)
— in particular a redelivery after the flag became true sends nothing;
and conversely any record that performs an effect at all had
`status == 'registered'` and `email_sent == False`. -/
theorem c1_idempotency_guard (msg : PyDict) (fetch : Value → Option RegDetails)
    (sendOk : Bool) (b : Bool)
    (hb : pyGet msg "email_sent" (Value.vbool false) = Value.vbool b) :
    ((pyGet msg "status" (Value.vstr "") ≠ Value.vstr "registered" ∨ b = true) →
      process_registration_event msg fetch sendOk = []) ∧
    (process_registration_event msg fetch sendOk ≠ [] →
      pyGet msg "status" (Value.vstr "") = Value.vstr "registered" ∧ b = false) := by
  by_cases hemp : msg.isEmpty = true
  · constructor
    · intro _
      simp [process_registration_event, hemp]
    · intro hne
      exfalso
      apply hne
      simp [process_registration_event, hemp]
  · constructor
    · intro hcase
      have hgt : pyGet msg "status" (Value.vstr "") ≠ Value.vstr "registered" ∨
          truthy (pyGet msg "email_sent" (Value.vbool false)) = true := by
        rcases hcase with hs | hb1
        · exact Or.inl hs
        · right
          rw [hb, hb1]
          rfl
      simp only [process_registration_event]
      rw [if_neg hemp, if_pos hgt]
    · intro hne
      have hgf : ¬(pyGet msg "status" (Value.vstr "") ≠ Value.vstr "registered" ∨
          truthy (pyGet msg "email_sent" (Value.vbool false)) = true) := by
        intro hgt
        apply hne
        simp only [process_registration_event]
        rw [if_neg hemp, if_pos hgt]
      push_neg at hgf
      obtain ⟨hs, hbt⟩ := hgf
      refine ⟨hs, ?_⟩
      rw [hb] at hbt
      simpa [truthy] using hbt

/-- C1 witness: a redelivered record whose flag is already true — status
`registered`, `email_sent` true — produces no effect at all. -/
theorem c1_idempotency_guard_witness :
    process_registration_event
      [("id", Value.vint 5), ("status", Value.vstr "registered"),
       ("email_sent", Value.vbool true)] (fun _ => none) true = [] :=
  (c1_idempotency_guard
    [("id", Value.vint 5), ("status", Value.vstr "registered"),
     ("email_sent", Value.vbool true)] (fun _ => none) true true rfl).1 (Or.inr rfl)

theorem mark_email_sent_rows (db : List RegRow) (rid : Int) (now : String) (i : Nat)
    (r r' : RegRow) (h1 : db[i]? = some r)
    (h2 : (mark_email_sent db rid now)[i]? = some r') :
    (r.rid = rid → r'.email_sent = true ∧ r'.email_sent_at = some now) ∧
    (r.rid ≠ rid → r' = r) := by
  unfold mark_email_sent at h2
  rw [List.getElem?_map, h1] at h2
  have h3 : some (if r.rid = rid
      then ({ r with email_sent := true, email_sent_at := some now } : RegRow) else r) =
      some r' := h2
  injection h3 with h4
  by_cases hr : r.rid = rid
  · rw [if_pos hr] at h4
    cases h4
    exact ⟨fun _ => ⟨rfl, rfl⟩, fun hn => absurd hr hn⟩
  · rw [if_neg hr] at h4
    cases h4
    exact ⟨fun hy => absurd hy hr, fun _ => rfl⟩

/-- C5: the idempotency-flag write happens exactly when the notification
send succeeded: a `markSent` effect occurs iff the record passed the
guard, the read-model fetch returned a row, and
`send_registration_confirmation` returned `True`; a failed send or a
failed fetch leaves the flag write unperformed.  And the flag write
itself (the SQL `UPDATE` of `mark_email_sent`) sets `email_sent = TRUE`
together with the send timestamp on exactly the origin registration row,
leaving every other row unchanged. -/
theorem c5_flag_write_iff_send (msg : PyDict) (fetch : Value → Option RegDetails)
    (sendOk : Bool) :
    (Effect.markSent (pyGet msg "id" Value.vnull) ∈
        process_registration_event msg fetch sendOk ↔
      (msg.isEmpty = false ∧
       pyGet msg "status" (Value.vstr "") = Value.vstr "registered" ∧
       truthy (pyGet msg "email_sent" (Value.vbool false)) = false ∧
       (fetch (pyGet msg "id" Value.vnull)).isSome = true ∧
       sendOk = true)) ∧
    (∀ (db : List RegRow) (rid : Int) (now : String) (i : Nat) (r r' : RegRow),
      db[i]? = some r →
      (mark_email_sent db rid now)[i]? = some r' →
      (r.rid = rid → r'.email_sent = true ∧ r'.email_sent_at = some now) ∧
      (r.rid ≠ rid → r' = r)) := by
  refine ⟨?_, fun db rid now i r r' h1 h2 => mark_email_sent_rows db rid now i r r' h1 h2⟩
  by_cases hemp : msg.isEmpty = true
  · simp only [process_registration_event]
    rw [if_pos hemp]
    simp [hemp]
  · by_cases hgt : pyGet msg "status" (Value.vstr "") ≠ Value.vstr "registered" ∨
        truthy (pyGet msg "email_sent" (Value.vbool false)) = true
    · simp only [process_registration_event]
      rw [if_neg hemp, if_pos hgt]
      constructor
      · intro hmem
        cases hmem
      · rintro ⟨-, hs, hb, -, -⟩
        rcases hgt with hg | hg
        · exact absurd hs hg
        · rw [hg] at hb
          cases hb
    · push_neg at hgt
      obtain ⟨hs, hbt⟩ := hgt
      have hbf : truthy (pyGet msg "email_sent" (Value.vbool false)) = false := by
        simpa using hbt
      simp only [process_registration_event]
      rw [if_neg hemp, if_neg (by
        push_neg
        exact ⟨hs, hbf ▸ by simp [hbf]⟩)]
      cases hfetch : fetch (pyGet msg "id" Value.vnull) with
      | none =>
        simp [hemp, hs, hbf, hfetch]
      | some rd =>
        cases sendOk with
        | true => simp [hemp, hs, hbf, hfetch]
        | false => simp [hemp, hs, hbf, hfetch]

/-- C5 witness: when the guard passes, the fetch returns a row and the
send succeeds, the flag-write effect is performed for that registration. -/
theorem c5_flag_write_iff_send_witness :
    Effect.markSent (Value.vint 5) ∈
      process_registration_event [("id", Value.vint 5), ("status", Value.vstr "registered")]
        (fun _ => some ⟨"PyCon", some "talks", "Tech", "Hall", some "2024-10-04",
          some "09:30:00", "ACM", "ada@example.org", some "Ada Lovelace", "ada"⟩)
        true :=
  ((c5_flag_write_iff_send [("id", Value.vint 5), ("status", Value.vstr "registered")]
      (fun _ => some ⟨"PyCon", some "talks", "Tech", "Hall", some "2024-10-04",
        some "09:30:00", "ACM", "ada@example.org", some "Ada Lovelace", "ada"⟩)
      true).1).mpr ⟨rfl, rfl, rfl, rfl, rfl⟩

/-- C2 counterexample: the claim that a duplicate delivery re-writes the
same logical document fails on the code.  Delivering the identical event
record `{id: 7, title: 'PyCon'}` twice into an empty index leaves two
distinct documents (the POST has no object id, so the server assigns a
fresh identity each time), both carrying `postgres_id = 7` — not one. -/
theorem c2_counterexample :
    send_to_weaviate [("id", Value.vint 7), ("title", Value.vstr "PyCon")] [] true =
      Except.ok [WDoc.mk 0 "Event"
        [("title", Value.vstr "PyCon"), ("postgres_id", Value.vint 7)]] ∧
    send_to_weaviate [("id", Value.vint 7), ("title", Value.vstr "PyCon")]
      [WDoc.mk 0 "Event" [("title", Value.vstr "PyCon"), ("postgres_id", Value.vint 7)]]
      true =
      Except.ok
        [WDoc.mk 0 "Event" [("title", Value.vstr "PyCon"), ("postgres_id", Value.vint 7)],
         WDoc.mk 1 "Event" [("title", Value.vstr "PyCon"), ("postgres_id", Value.vint 7)]] ∧
    WDoc.mk 0 "Event" [("title", Value.vstr "PyCon"), ("postgres_id", Value.vint 7)] ≠
      WDoc.mk 1 "Event" [("title", Value.vstr "PyCon"), ("postgres_id", Value.vint 7)] :=
  ⟨rfl, rfl, by decide⟩

/-- C2 (amended): `send_to_weaviate` is a create, not an upsert.  Each
successful delivery of a record appends one new document with a fresh
server-assigned identity; delivering the same record twice therefore
yields two documents with identical properties (and identical
`postgres_id` cross-reference) rather than re-writing one. -/
theorem c2_index_create_not_upsert (m p : PyDict) (h : weaviateProps m = .ok p)
    (idx : List WDoc) :
    send_to_weaviate m idx true = .ok (idx ++ [⟨idx.length, "Event", p⟩]) ∧
    send_to_weaviate m (idx ++ [⟨idx.length, "Event", p⟩]) true =
      .ok (idx ++ [⟨idx.length, "Event", p⟩, ⟨idx.length + 1, "Event", p⟩]) := by
  constructor
  · simp only [send_to_weaviate, h, if_true]
  · simp only [send_to_weaviate, h, if_true, List.length_append, List.length_cons,
      List.length_nil, List.append_assoc, List.cons_append, List.nil_append, Nat.zero_add]

/-- C2 witness: the duplicate-delivery scenario instantiated at an empty
index and the record `{id: 7, title: 'PyCon'}`. -/
theorem c2_index_create_not_upsert_witness :
    send_to_weaviate [("id", Value.vint 7), ("title", Value.vstr "PyCon")] [] true =
      Except.ok [WDoc.mk 0 "Event"
        [("title", Value.vstr "PyCon"), ("postgres_id", Value.vint 7)]] := by
  have h := (c2_index_create_not_upsert
    [("id", Value.vint 7), ("title", Value.vstr "PyCon")]
    [("title", Value.vstr "PyCon"), ("postgres_id", Value.vint 7)] rfl []).1
  simpa using h

/-- C7 counterexample: the claim that the upserted document always carries
the source id under `postgres_id` fails on the code.  The re-attachment
is guarded by Python truthiness (`if postgres_id:`), so a record whose
origin primary key is the integer `0` loses it entirely: the raw `id` key
is popped and `postgres_id` is never written — the resulting property bag
is empty. -/
theorem c7_counterexample :
    weaviateProps [("id", Value.vint 0)] = Except.ok [] ∧
    pyLookup ([] : PyDict) "postgres_id" = none :=
  ⟨rfl, rfl⟩

/-- C7 (amended): for every event record on which `convert_dates`
succeeds, the origin primary key is removed from the property bag, and it
is preserved under the fixed cross-reference name `postgres_id` exactly
when its value is truthy (in particular for every nonzero integer id);
when the id is falsy (zero, null, empty) or absent, the raw `id` key is
still removed but no cross-reference field is attached. -/
theorem c7_crossref_preserved (m c : PyDict) (h : convert_dates m = .ok c) :
    (truthy (pyGet c "id" Value.vnull) = true →
      weaviateProps m =
        .ok (pySet (pyErase c "id") "postgres_id" (pyGet c "id" Value.vnull)) ∧
      pyLookup (pySet (pyErase c "id") "postgres_id" (pyGet c "id" Value.vnull)) "id" =
        none ∧
      pyLookup (pySet (pyErase c "id") "postgres_id" (pyGet c "id" Value.vnull))
        "postgres_id" = some (pyGet c "id" Value.vnull)) ∧
    (truthy (pyGet c "id" Value.vnull) = false →
      weaviateProps m = .ok (pyErase c "id") ∧
      pyLookup (pyErase c "id") "id" = none) := by
  constructor
  · intro ht
    refine ⟨?_, ?_, ?_⟩
    · simp only [weaviateProps, h, ht, if_true]
    · rw [pyLookup_pySet_ne _ _ _ _ (by decide)]
      exact pyLookup_pyErase_self c "id"
    · exact pyLookup_pySet_self _ _ _
  · intro hf
    refine ⟨?_, pyLookup_pyErase_self c "id"⟩
    simp only [weaviateProps, h, hf]
    rfl

/-- C7 witness: a record with the nonzero id 7 keeps its source id as
`postgres_id` and loses the raw `id` key. -/
theorem c7_crossref_preserved_witness :
    truthy (pyGet [("id", Value.vint 7), ("title", Value.vstr "PyCon")] "id" Value.vnull) =
      true ∧
    pyLookup (pySet (pyErase [("id", Value.vint 7), ("title", Value.vstr "PyCon")] "id")
      "postgres_id"
      (pyGet [("id", Value.vint 7), ("title", Value.vstr "PyCon")] "id" Value.vnull))
      "id" = none :=
  ⟨rfl, ((c7_crossref_preserved [("id", Value.vint 7), ("title", Value.vstr "PyCon")]
    [("id", Value.vint 7), ("title", Value.vstr "PyCon")] rfl).1 rfl).2.1⟩

/-- C6: the claim that no per-record processing error terminates either
consumer loop fails for the index-sync loop.  A message whose payload
makes `convert_dates` raise (here `event_date = 1000000000`, which
overflows `timedelta`) propagates out of `send_to_weaviate` — its
try/except covers only the HTTP post — and out of `main`'s `for` loop:
the loop terminates with the error and the following well-formed message
(which, delivered alone, is indexed fine, as the second conjunct shows)
is never processed.  The notification loop, by contrast, wraps each
message in try/except and does continue past failures (third conjunct: a
failed fetch on the first message does not stop the second from being
fully processed). -/
theorem c6_loop_termination :
    runIndexLoop true
      [Payload.pdict [("event_date", Value.vint 1000000000)],
       Payload.pdict [("id", Value.vint 7), ("title", Value.vstr "PyCon")]] [] =
      Except.error "OverflowError" ∧
    runIndexLoop true
      [Payload.pdict [("id", Value.vint 7), ("title", Value.vstr "PyCon")]] [] =
      Except.ok [WDoc.mk 0 "Event"
        [("title", Value.vstr "PyCon"), ("postgres_id", Value.vint 7)]] ∧
    runEmailLoop
      [some [("id", Value.vint 4), ("status", Value.vstr "registered")],
       some [("id", Value.vint 5), ("status", Value.vstr "registered")]]
      (fun v => if v = Value.vint 5
        then some ⟨"PyCon", some "talks", "Tech", "Hall", some "2024-10-04",
          some "09:30:00", "ACM", "ada@example.org", some "Ada Lovelace", "ada"⟩
        else none)
      true =
      [[Effect.fetch (Value.vint 4)],
       [Effect.fetch (Value.vint 5),
        Effect.send "ada@example.org" "Ada Lovelace"
          ⟨"PyCon", some "talks", "Tech", "Hall", "2024-10-04", "09:30:00", "ACM"⟩,
        Effect.markSent (Value.vint 5)]] :=
  ⟨rfl, rfl, rfl⟩

/-- C9: the email body's fallbacks.  A missing (`NULL`) event date or
time each falls back to `TBD`; when both are missing the date/time line
reads `Date and time to be announced`; when both are present the line is
`date at time`; and the recipient's display name falls back from the
fetched full name to the username exactly when the full name is `NULL`
or empty. -/
theorem c9_template_fallbacks (rd : RegDetails) :
    (rd.event_date = none → (mkEventDetails rd).event_date = "TBD") ∧
    (rd.event_time = none → (mkEventDetails rd).event_time = "TBD") ∧
    (rd.event_date = none → rd.event_time = none →
      formattedDatetime (mkEventDetails rd) = "Date and time to be announced") ∧
    (∀ d t : String, rd.event_date = some d → rd.event_time = some t →
      d ≠ "TBD" → t ≠ "TBD" →
      formattedDatetime (mkEventDetails rd) = d ++ " at " ++ t) ∧
    ((rd.full_name = none ∨ rd.full_name = some "") → displayName rd = rd.username) ∧
    (∀ s : String, rd.full_name = some s → s ≠ "" → displayName rd = s) := by
  refine ⟨?_, ?_, ?_, ?_, ?_, ?_⟩
  · intro hd
    simp [mkEventDetails, hd]
  · intro ht
    simp [mkEventDetails, ht]
  · intro hd ht
    simp [mkEventDetails, formattedDatetime, hd, ht]
  · intro d t hd ht hdT htT
    simp [mkEventDetails, formattedDatetime, hd, ht, hdT, htT]
  · rintro (hn | hn) <;> simp [displayName, hn]
  · intro s hs hne
    simp [displayName, hs, hne]

/-- C9 witness: with both fields present the line is `date at time`, and
the nonempty full name is used as the display name. -/
theorem c9_template_fallbacks_witness :
    formattedDatetime (mkEventDetails ⟨"PyCon", some "talks", "Tech", "Hall",
      some "2024-10-04", some "09:30:00", "ACM", "ada@example.org",
      some "Ada Lovelace", "ada"⟩) = "2024-10-04" ++ " at " ++ "09:30:00" :=
  (c9_template_fallbacks ⟨"PyCon", some "talks", "Tech", "Hall",
    some "2024-10-04", some "09:30:00", "ACM", "ada@example.org",
    some "Ada Lovelace", "ada"⟩).2.2.2.1 "2024-10-04" "09:30:00" rfl rfl
    (by decide) (by decide)

theorem convDateStepS_ok (s s' : ConvStore) (h : convDateStepS s = .ok s') :
    s'.event_data = s.event_data ∧ convDateStep s.converted_data = .ok s'.converted_data := by
  unfold convDateStepS at h
  split at h
  · cases h
  case _ c hc =>
    cases h
    exact ⟨rfl, hc⟩

theorem convTsStepS_ok (s s' : ConvStore) (field : String)
    (h : convTsStepS s field = .ok s') :
    s'.event_data = s.event_data ∧
    convTsStep s.converted_data field = .ok s'.converted_data := by
  unfold convTsStepS at h
  split at h
  · cases h
  case _ c hc =>
    cases h
    exact ⟨rfl, hc⟩

/-- C10: `convert_dates` never mutates its argument.  Running the body
statement by statement over both dict-valued locals, whenever the call
returns, the caller's dict `event_data` still holds exactly its original
entries — every write went to the fresh copy `converted_data`, which is
what the call returns (and which equals the functional `convert_dates`). -/
theorem c10_no_argument_mutation (m : PyDict) (s : ConvStore)
    (h : convertDatesRun m = .ok s) :
    s.event_data = m ∧ convert_dates m = .ok s.converted_data := by
  unfold convertDatesRun at h
  split at h
  · cases h
  case _ s2 h2 =>
    split at h
    · cases h
    case _ s4 h4 =>
      split at h
      · cases h
      case _ s5 h5 =>
        cases h
        obtain ⟨e2, d2⟩ := convDateStepS_ok _ s2 h2
        obtain ⟨e4, d4⟩ := convTsStepS_ok _ s4 "created_at" h4
        obtain ⟨e5, d5⟩ := convTsStepS_ok _ s "updated_at" h5
        have ed : s.event_data = m := by
          rw [e5, e4]
          simpa [convTimeStepS, convCopyStep] using e2
        refine ⟨ed, ?_⟩
        have d2' : convDateStep m = .ok s2.converted_data := by
          simpa [convCopyStep] using d2
        have d4' : convTsStep (convTimeStep s2.converted_data) "created_at" =
            .ok s4.converted_data := by
          simpa [convTimeStepS] using d4
        simp only [convert_dates, d2', d4', d5]

/-- C10 witness: a payload whose `event_date` really is converted — the
argument is unchanged while the returned dict differs from it. -/
theorem c10_no_argument_mutation_witness :
    (ConvStore.mk [("event_date", Value.vint 20000), ("location", Value.vstr "Hall")]
      [("event_date", Value.vstr "2024-10-04"), ("location", Value.vstr "Hall")]).event_data =
      [("event_date", Value.vint 20000), ("location", Value.vstr "Hall")] ∧
    convert_dates [("event_date", Value.vint 20000), ("location", Value.vstr "Hall")] =
      Except.ok (ConvStore.mk
        [("event_date", Value.vint 20000), ("location", Value.vstr "Hall")]
        [("event_date", Value.vstr "2024-10-04"),
         ("location", Value.vstr "Hall")]).converted_data :=
  c10_no_argument_mutation
    [("event_date", Value.vint 20000), ("location", Value.vstr "Hall")]
    (ConvStore.mk [("event_date", Value.vint 20000), ("location", Value.vstr "Hall")]
      [("event_date", Value.vstr "2024-10-04"), ("location", Value.vstr "Hall")])
    rfl

end EventCDC
